import Mathlib

/-!
Shallow embedding of the casbin PostgreSQL adapter (`adapter.go`) and proofs
about its rule codec, storage operations and connection lifecycle.

The adapter's own code (the rule codec `savePolicyLine` / `loadPolicyLine`,
the table DDL, and the five public operations) is translated directly from
the source.  The external collaborators — the go-pg database client and the
casbin model's line-loading contract — are not part of this repository; they
are modelled from the specification's description of their contract, and
each such definition carries a doc comment saying so.
-/

/-- The stored row: a type column and six positional value columns
(struct `CasbinRule` in the source, with `sql:"x_policy"` table tag). -/
structure CasbinRule where
  PType : String := ""
  V0 : String := ""
  V1 : String := ""
  V2 : String := ""
  V3 : String := ""
  V4 : String := ""
  V5 : String := ""
  deriving DecidableEq, Repr

/-- Value column of a row by index 0..5 (indices ≥ 6 do not exist and read
as the empty string). -/
def CasbinRule.getV (r : CasbinRule) : Nat → String
  | 0 => r.V0
  | 1 => r.V1
  | 2 => r.V2
  | 3 => r.V3
  | 4 => r.V4
  | 5 => r.V5
  | _ => ""

/-- `savePolicyLine` from the source: encode a policy type and a rule
(field list) into a stored row.  Each guard `len(rule) > i` and assignment
`line.Vi = rule[i]` is mirrored; fields beyond index 5 are never read. -/
def savePolicyLine (ptype : String) (rule : List String) : CasbinRule :=
  { PType := ptype
    V0 := if rule.length > 0 then rule.getD 0 "" else ""
    V1 := if rule.length > 1 then rule.getD 1 "" else ""
    V2 := if rule.length > 2 then rule.getD 2 "" else ""
    V3 := if rule.length > 3 then rule.getD 3 "" else ""
    V4 := if rule.length > 4 then rule.getD 4 "" else ""
    V5 := if rule.length > 5 then rule.getD 5 "" else "" }

/-- The text line built by `loadPolicyLine` in the source: the type column
followed by each non-empty value column, in column order, each preceded by
the separator `", "`. -/
def loadPolicyLineText (line : CasbinRule) : String :=
  let t0 := line.PType
  let t1 := if line.V0 ≠ "" then t0 ++ ", " ++ line.V0 else t0
  let t2 := if line.V1 ≠ "" then t1 ++ ", " ++ line.V1 else t1
  let t3 := if line.V2 ≠ "" then t2 ++ ", " ++ line.V2 else t2
  let t4 := if line.V3 ≠ "" then t3 ++ ", " ++ line.V3 else t3
  let t5 := if line.V4 ≠ "" then t4 ++ ", " ++ line.V4 else t4
  if line.V5 ≠ "" then t5 ++ ", " ++ line.V5 else t5

/-! ## The line-loading contract of the policy engine

`loadPolicyLine` hands the text line to `persist.LoadPolicyLine`, which
belongs to the external casbin engine.  Per the specification, that entry
point "re-splits on comma" (the adapter's `", "` separator) and appends the
resulting rule to the model.  We model the splitting over character lists. -/

/-- Prepend a character to the first chunk of a split result. -/
def consHead (c : Char) : List (List Char) → List (List Char)
  | [] => [[c]]
  | h :: t => (c :: h) :: t

/-- Modelled from the spec: the policy engine's line-loader re-splits the
comma-joined line on the `", "` separator (split over character lists). -/
def splitSep : List Char → List (List Char)
  | [] => [[]]
  | ',' :: ' ' :: rest => [] :: splitSep rest
  | c :: rest => consHead c (splitSep rest)

/-- Whether a character list contains the `", "` separator. -/
def hasSep : List Char → Bool
  | ',' :: ' ' :: _ => true
  | _ :: rest => hasSep rest
  | [] => false

/-- Join chunks with the `", "` separator (the shape `loadPolicyLine`'s
text has when every included column is non-empty). -/
def joinSep : List (List Char) → List Char
  | [] => []
  | [p] => p
  | p :: ps => p ++ ',' :: ' ' :: joinSep ps

/-- Modelled from the spec: the model's line-loading entry point splits the
comma-joined line into the policy key and the rule's fields. -/
def parseLine (s : String) : String × List String :=
  match (splitSep s.data).map String.mk with
  | [] => ("", [])
  | key :: fields => (key, fields)

/-! ## The database client

The go-pg client is an external collaborator.  Modelled from the spec's
contract: raw DDL execution, querying a table into a row collection, row
insert, and row delete-by-field-match.  A database is a list of named
tables; SQL table names are unique, so every access touches the first
entry with the given name. -/

/-- Table targeted by `createTable` / `dropTable` and by the `CasbinRule`
struct's `sql:"x_policy"` tag (inserts and deletes). -/
def xPolicyTableName : String := "x_policy"

/-- Table named in `LoadPolicy`'s query string `"select * from policy"`. -/
def loadQueryTableName : String := "policy"

/-- The query string of `LoadPolicy` (`sqlstr` in the source). -/
def sqlstr : String := "select * from policy"

/-- Modelled from the spec: the relational store, a list of named tables. -/
structure DB where
  tables : List (String × List CasbinRule)
  deriving DecidableEq, Repr

/-- Rows of the first table with the given name, if present. -/
def lookupTable (ts : List (String × List CasbinRule)) (n : String) :
    Option (List CasbinRule) :=
  match ts with
  | [] => none
  | (m, rs) :: rest => if m = n then some rs else lookupTable rest n

/-- Apply `f` to the rows of the first table with the given name. -/
def updateTable (ts : List (String × List CasbinRule)) (n : String)
    (f : List CasbinRule → List CasbinRule) : List (String × List CasbinRule) :=
  match ts with
  | [] => []
  | (m, rs) :: rest =>
    if m = n then (m, f rs) :: rest else (m, rs) :: updateTable rest n f

/-- Rows of a named table. -/
def DB.find (db : DB) (n : String) : Option (List CasbinRule) :=
  lookupTable db.tables n

/-- `createTable` from the source: `CREATE table IF NOT EXISTS x_policy …`
(idempotent; a DDL error makes the adapter panic, but creating an existing
table is not an error thanks to `IF NOT EXISTS`). -/
def DB.createTable (db : DB) : DB :=
  if (db.find xPolicyTableName).isSome then db
  else ⟨db.tables ++ [(xPolicyTableName, [])]⟩

/-- `dropTable` from the source: `DROP table x_policy`; the statement
errors when the table is absent (and the adapter panics: `none`). -/
def DB.dropTable (db : DB) : Option DB :=
  if (db.find xPolicyTableName).isSome then
    some ⟨db.tables.filter (fun t => t.1 ≠ xPolicyTableName)⟩
  else none

/-- Modelled from the spec: row insert into the row's table (the
`x_policy` tag); errors (`none`) when the table is absent. -/
def DB.insert (db : DB) (r : CasbinRule) : Option DB :=
  if (db.find xPolicyTableName).isSome then
    some ⟨updateTable db.tables xPolicyTableName (fun rs => rs ++ [r])⟩
  else none

/-- Modelled from the spec: `RemovePolicy` "deletes by full-field match" —
delete all rows equal to the encoded rule. -/
def DB.deleteExact (db : DB) (line : CasbinRule) : Option DB :=
  if (db.find xPolicyTableName).isSome then
    some ⟨updateTable db.tables xPolicyTableName
      (fun rs => rs.filter (fun r => r ≠ line))⟩
  else none

/-- Modelled from the spec: the filtered delete's row match — a column of
the filter row that is the empty string is a wildcard (unconstrained, not
matched against empty string); a non-empty column must match exactly. -/
def matchesFilter (line r : CasbinRule) : Bool :=
  (line.PType == "" || r.PType == line.PType) &&
  (line.V0 == "" || r.V0 == line.V0) &&
  (line.V1 == "" || r.V1 == line.V1) &&
  (line.V2 == "" || r.V2 == line.V2) &&
  (line.V3 == "" || r.V3 == line.V3) &&
  (line.V4 == "" || r.V4 == line.V4) &&
  (line.V5 == "" || r.V5 == line.V5)

/-- Modelled from the spec: delete all rows matching the filter row. -/
def DB.deleteFiltered (db : DB) (line : CasbinRule) : Option DB :=
  if (db.find xPolicyTableName).isSome then
    some ⟨updateTable db.tables xPolicyTableName
      (fun rs => rs.filter (fun r => !(matchesFilter line r)))⟩
  else none

/-! ## The policy model

Owned by the external engine; modelled from the spec: a two-level mapping
section → policy type → rules, of which the adapter reads the "p" and "g"
sections.  Association lists fix an iteration order. -/

/-- A section: policy type → list of rules. -/
abbrev Section := List (String × List (List String))

/-- Modelled from the spec: the policy model's "p" and "g" sections. -/
structure Model where
  p : Section
  g : Section
  deriving DecidableEq, Repr

/-- Append a rule under a policy type within a section. -/
def addToSection (s : Section) (key : String) (rule : List String) : Section :=
  match s with
  | [] => [(key, [rule])]
  | (k, rules) :: rest =>
    if k = key then (k, rules ++ [rule]) :: rest
    else (k, rules) :: addToSection rest key rule

/-- Rules stored under a policy type within a section. -/
def sectionRules (s : Section) (key : String) : List (List String) :=
  match s with
  | [] => []
  | (k, rules) :: rest => if k = key then rules else sectionRules rest key

/-- Modelled from the spec: `persist.LoadPolicyLine` — parse the line into
key and fields and append the rule under the key's section (the key's
first character names the section). -/
def persistLoadPolicyLine (lineText : String) (m : Model) : Model :=
  let kr := parseLine lineText
  if kr.1.take 1 = "p" then { m with p := addToSection m.p kr.1 kr.2 }
  else if kr.1.take 1 = "g" then { m with g := addToSection m.g kr.1 kr.2 }
  else m

/-- `loadPolicyLine` from the source: build the text line from the row and
feed it to the model's line-loading entry point. -/
def loadPolicyLine (line : CasbinRule) (m : Model) : Model :=
  persistLoadPolicyLine (loadPolicyLineText line) m

/-- Per-type rules of a model, by section name and policy type. -/
def Model.rulesOf (m : Model) (sec key : String) : List (List String) :=
  if sec = "p" then sectionRules m.p key
  else if sec = "g" then sectionRules m.g key
  else []

/-! ## The adapter's state and operations -/

/-- Connection lifecycle state of the adapter (spec §4.2). -/
inductive ConnState where
  | unopened
  | opened
  | closed
  deriving DecidableEq, Repr

/-- The adapter: connection state, the store it talks to, and how many
connections it has opened so far. -/
structure AdapterState where
  conn : ConnState
  db : DB
  openCount : Nat
  deriving DecidableEq, Repr

/-- `open()` from the source: connect a fresh connection and ensure the
table exists (`createTable`). -/
def AdapterState.openConn (st : AdapterState) : AdapterState :=
  ⟨ConnState.opened, st.db.createTable, st.openCount + 1⟩

/-- `close()` from the source — defined but never called by any public
operation (`defer a.close()` is commented out). -/
def AdapterState.closeConn (st : AdapterState) : AdapterState :=
  ⟨ConnState.closed, st.db, st.openCount⟩

/-- Outcome of an operation: a Go panic, a returned non-nil error (with
the state after partial effects), or success. -/
inductive Res (α : Type) where
  | panicked
  | err (a : α)
  | ok (a : α)
  deriving DecidableEq, Repr

/-- The state carried by a non-panicking outcome. -/
def Res.state {α : Type} : Res α → Option α
  | .panicked => none
  | .err a => some a
  | .ok a => some a

/-- Whether the outcome is a returned error. -/
def Res.isErr {α : Type} : Res α → Bool
  | .err _ => true
  | _ => false

/-- `LoadPolicy` from the source: open a fresh connection (ensuring the
table), query `select * from policy`, return the query error if any,
otherwise fold each returned row into the model via `loadPolicyLine`. -/
def LoadPolicy (st : AdapterState) (m : Model) : Res (AdapterState × Model) :=
  let st1 := st.openConn
  match st1.db.find loadQueryTableName with
  | none => .err (st1, m)
  | some lines => .ok (st1, lines.foldl (fun acc l => loadPolicyLine l acc) m)

/-- One row per rule of a section, in iteration order, each produced by
`savePolicyLine` — the rows `SavePolicy`'s per-section loop inserts. -/
def sectionLines (ptypeRules : Section) : List CasbinRule :=
  ptypeRules.flatMap (fun pr => pr.2.map (savePolicyLine pr.1))

/-- The insert loop body shared by `SavePolicy`'s two loops: insert each
row in turn, stopping at the first error (`true` = an error occurred). -/
def insertAll (db : DB) : List CasbinRule → DB × Bool
  | [] => (db, false)
  | r :: rs =>
    match db.insert r with
    | none => (db, true)
    | some db2 => insertAll db2 rs

/-- `SavePolicy` from the source: open (ensuring the table), drop the
table, recreate it, then insert one row per rule of the "p" section
followed by one row per rule of the "g" section, returning early on an
insert error. -/
def SavePolicy (st : AdapterState) (m : Model) : Res AdapterState :=
  let st1 := st.openConn
  match st1.db.dropTable with
  | none => .panicked
  | some db1 =>
    let db2 := db1.createTable
    match insertAll db2 (sectionLines m.p) with
    | (db3, true) => .err { st1 with db := db3 }
    | (db3, false) =>
      match insertAll db3 (sectionLines m.g) with
      | (db4, true) => .err { st1 with db := db4 }
      | (db4, false) => .ok { st1 with db := db4 }

/-- `AddPolicy` from the source: encode the rule and insert one row.  The
source does not call `open()` first: on an unopened adapter `a.db` is nil
and the insert dereferences it (panic); on a closed connection the client
returns an error. -/
def AddPolicy (st : AdapterState) (sec ptype : String) (rule : List String) :
    Res AdapterState :=
  match st.conn with
  | .unopened => .panicked
  | .closed => .err st
  | .opened =>
    match st.db.insert (savePolicyLine ptype rule) with
    | none => .err st
    | some db2 => .ok { st with db := db2 }

/-- `RemovePolicy` from the source: encode the exact rule and delete by
full-field match.  Like `AddPolicy`, it does not call `open()` first. -/
def RemovePolicy (st : AdapterState) (sec ptype : String) (rule : List String) :
    Res AdapterState :=
  match st.conn with
  | .unopened => .panicked
  | .closed => .err st
  | .opened =>
    match st.db.deleteExact (savePolicyLine ptype rule) with
    | none => .err st
    | some db2 => .ok { st with db := db2 }

/-- The guard of `RemoveFilteredPolicy`'s column-`i` assignment:
`fieldIndex <= i && i < fieldIndex+len(fieldValues)` (Go `int`s). -/
def rfGuard (fieldIndex : Int) (n : Nat) (i : Nat) : Prop :=
  fieldIndex ≤ (i : Int) ∧ (i : Int) < fieldIndex + (n : Int)

instance (fieldIndex : Int) (n i : Nat) : Decidable (rfGuard fieldIndex n i) :=
  inferInstanceAs (Decidable (And _ _))

/-- The index `i - fieldIndex` used to read `fieldValues` for column `i`. -/
def rfAccess (fieldIndex : Int) (i : Nat) : Int :=
  (i : Int) - fieldIndex

/-- The filter row built by `RemoveFilteredPolicy`: column `i` is set to
`fieldValues[i-fieldIndex]` when the guard holds, and left as the empty
string (the zero value) otherwise. -/
def rfpLine (ptype : String) (fieldIndex : Int) (fieldValues : List String) :
    CasbinRule :=
  { PType := ptype
    V0 := if rfGuard fieldIndex fieldValues.length 0 then
        fieldValues.getD (rfAccess fieldIndex 0).toNat "" else ""
    V1 := if rfGuard fieldIndex fieldValues.length 1 then
        fieldValues.getD (rfAccess fieldIndex 1).toNat "" else ""
    V2 := if rfGuard fieldIndex fieldValues.length 2 then
        fieldValues.getD (rfAccess fieldIndex 2).toNat "" else ""
    V3 := if rfGuard fieldIndex fieldValues.length 3 then
        fieldValues.getD (rfAccess fieldIndex 3).toNat "" else ""
    V4 := if rfGuard fieldIndex fieldValues.length 4 then
        fieldValues.getD (rfAccess fieldIndex 4).toNat "" else ""
    V5 := if rfGuard fieldIndex fieldValues.length 5 then
        fieldValues.getD (rfAccess fieldIndex 5).toNat "" else "" }

/-- `RemoveFilteredPolicy` from the source: build the filter row and
delete the matching rows.  Like `AddPolicy`, it does not call `open()`. -/
def RemoveFilteredPolicy (st : AdapterState) (sec ptype : String)
    (fieldIndex : Int) (fieldValues : List String) : Res AdapterState :=
  match st.conn with
  | .unopened => .panicked
  | .closed => .err st
  | .opened =>
    match st.db.deleteFiltered (rfpLine ptype fieldIndex fieldValues) with
    | none => .err st
    | some db2 => .ok { st with db := db2 }

/-! ## Concrete instances used to exercise the operations -/

/-- The model of the spec's save/load round-trip property: section "p"
holds `("p","alice","data1","read")` and `("p","bob","data2","write")`,
section "g" holds `("g","alice","admin")`. -/
def demoModel : Model where
  p := [("p", [["alice", "data1", "read"], ["bob", "data2", "write"]])]
  g := [("g", [["alice", "admin"]])]

/-- A fresh empty model. -/
def emptyModel : Model := ⟨[], []⟩

/-- A just-constructed adapter: no connection, empty store. -/
def freshAdapter : AdapterState := ⟨ConnState.unopened, ⟨[]⟩, 0⟩

/-- `SavePolicy` on a fresh adapter followed by `LoadPolicy` into a fresh
empty model. -/
def demoRoundTrip : Res (AdapterState × Model) :=
  match SavePolicy freshAdapter demoModel with
  | .ok st1 => LoadPolicy st1 emptyModel
  | .err st1 => .err (st1, emptyModel)
  | .panicked => .panicked

/-- The row-match predicate claimed for `RemoveFilteredPolicy`: value
columns `fieldIndex .. fieldIndex+len(fieldValues)-1` are constrained to
the given values, every other value column is a wildcard; the type column
is constrained whenever the given policy type is non-empty. -/
def claimMatch (ptype : String) (fieldIndex : Int) (fieldValues : List String)
    (r : CasbinRule) : Bool :=
  (ptype == "" || r.PType == ptype) &&
  (if rfGuard fieldIndex fieldValues.length 0 then
      r.V0 == fieldValues.getD (rfAccess fieldIndex 0).toNat "" else true) &&
  (if rfGuard fieldIndex fieldValues.length 1 then
      r.V1 == fieldValues.getD (rfAccess fieldIndex 1).toNat "" else true) &&
  (if rfGuard fieldIndex fieldValues.length 2 then
      r.V2 == fieldValues.getD (rfAccess fieldIndex 2).toNat "" else true) &&
  (if rfGuard fieldIndex fieldValues.length 3 then
      r.V3 == fieldValues.getD (rfAccess fieldIndex 3).toNat "" else true) &&
  (if rfGuard fieldIndex fieldValues.length 4 then
      r.V4 == fieldValues.getD (rfAccess fieldIndex 4).toNat "" else true) &&
  (if rfGuard fieldIndex fieldValues.length 5 then
      r.V5 == fieldValues.getD (rfAccess fieldIndex 5).toNat "" else true)

/-- An adapter whose (open) store holds exactly the row encoding
`("p","alice","data1","read")`. -/
def oneRowAdapter : AdapterState :=
  ⟨ConnState.opened,
    ⟨[(xPolicyTableName, [savePolicyLine "p" ["alice", "data1", "read"]])]⟩, 1⟩

/-! ## Helper lemmas on the separator split -/

theorem splitSep_cons (c : Char) (l : List Char)
    (h : ¬ (c = ',' ∧ l.head? = some ' ')) :
    splitSep (c :: l) = consHead c (splitSep l) := by
  rw [splitSep.eq_def]
  split
  · simp_all
  · rename_i rest heq
    injection heq with h1 h2
    exact absurd ⟨h1, by rw [h2]; rfl⟩ h
  · rename_i l' c' rest' hno heq
    rw [List.cons.injEq] at heq
    rw [heq.1, heq.2]

theorem hasSep_cons (c : Char) (l : List Char) (h : hasSep (c :: l) = false) :
    hasSep l = false := by
  rw [hasSep.eq_def] at h
  split at h
  · exact absurd h (by simp)
  · rename_i h2 heq
    rw [List.cons.injEq] at heq
    rw [heq.2]
    exact h
  · simp_all

theorem hasSep_cons_not (c : Char) (l : List Char) (h : hasSep (c :: l) = false) :
    ¬ (c = ',' ∧ l.head? = some ' ') := by
  rintro ⟨rfl, hl⟩
  rcases l with _ | ⟨c2, l'⟩
  · simp at hl
  · simp at hl
    subst hl
    simp [hasSep] at h

theorem splitSep_no_sep (p : List Char) (h : hasSep p = false) :
    splitSep p = [p] := by
  induction p with
  | nil => rfl
  | cons c p' ih =>
    rw [splitSep_cons c p' (hasSep_cons_not c p' h), ih (hasSep_cons c p' h)]
    rfl

theorem splitSep_append (p rest : List Char) (h : hasSep p = false) :
    splitSep (p ++ ',' :: ' ' :: rest) = p :: splitSep rest := by
  induction p with
  | nil => rfl
  | cons c p' ih =>
    have h1 : ¬ (c = ',' ∧ (p' ++ ',' :: ' ' :: rest).head? = some ' ') := by
      rintro ⟨rfl, hl⟩
      rcases p' with _ | ⟨c2, p''⟩
      · simp at hl
      · simp at hl
        subst hl
        simp [hasSep] at h
    rw [List.cons_append, splitSep_cons c _ h1, ih (hasSep_cons c p' h)]
    rfl

theorem splitSep_joinSep (ps : List (List Char)) (hne : ps ≠ [])
    (h : ∀ p ∈ ps, hasSep p = false) : splitSep (joinSep ps) = ps := by
  induction ps with
  | nil => exact absurd rfl hne
  | cons p ps' ih =>
    rcases ps' with _ | ⟨q, ps''⟩
    · exact splitSep_no_sep p (h p (by simp))
    · have hj : joinSep (p :: q :: ps'') = p ++ ',' :: ' ' :: joinSep (q :: ps'') := rfl
      rw [hj, splitSep_append _ _ (h p (by simp)),
        ih (by simp) (fun x hx => h x (List.mem_cons_of_mem _ hx))]

theorem stringMk_data (s : String) : String.mk s.data = s := rfl

theorem parseLine_of_join (key : String) (fs : List String) (s : String)
    (hkey : hasSep key.data = false)
    (hfs : ∀ f ∈ fs, hasSep f.data = false)
    (hs : s.data = joinSep (key.data :: fs.map String.data)) :
    parseLine s = (key, fs) := by
  unfold parseLine
  rw [hs, splitSep_joinSep _ (by simp) ?_]
  · simp only [List.map_cons, List.map_map, stringMk_data]
    rw [show String.mk ∘ String.data = id from rfl, List.map_id]
  · intro p hp
    rcases List.mem_cons.mp hp with rfl | hp2
    · exact hkey
    · obtain ⟨f, hf, rfl⟩ := List.mem_map.mp hp2
      exact hfs f hf

/-! ## Claims C2, C4, C5 -/

/-- C2: the table name that `LoadPolicy`'s query reads from (`"policy"`,
from `sqlstr`) is not the table that `createTable` / `dropTable` target
(`"x_policy"`). -/
theorem c2_load_table_mismatch :
    loadQueryTableName ≠ xPolicyTableName ∧
    sqlstr = "select * from " ++ loadQueryTableName := by
  exact ⟨by decide, rfl⟩

theorem getD_take_ite (rule : List String) (k : Nat) (hk : k < 6) :
    (if rule.length > k then rule.getD k "" else "") =
    (if (rule.take 6).length > k then (rule.take 6).getD k "" else "") := by
  rcases Nat.lt_or_ge k rule.length with h | h
  · rw [if_pos h, if_pos (by simp only [List.length_take]; omega),
      List.getD_eq_getElem?_getD, List.getD_eq_getElem?_getD,
      List.getElem?_take_of_lt hk]
  · rw [if_neg (by omega), if_neg (by simp only [List.length_take]; omega)]

/-- C4: `savePolicyLine` sets the type column to the policy type, sets
value column `i` to `rule[i]` for each `i < min(length, 6)`, leaves every
remaining value column as the empty string (`List.getD i ""` states both
at once), and silently drops any fields beyond index 5 (the encoding of a
rule equals that of its first six fields). -/
theorem c4_savePolicyLine_columns (ptype : String) (rule : List String) :
    (savePolicyLine ptype rule).PType = ptype ∧
    (∀ i, i < 6 → (savePolicyLine ptype rule).getV i = rule.getD i "") ∧
    savePolicyLine ptype rule = savePolicyLine ptype (rule.take 6) := by
  refine ⟨rfl, ?_, ?_⟩
  · intro i hi
    interval_cases i <;>
      · simp only [savePolicyLine, CasbinRule.getV]
        split
        · rfl
        · rename_i h
          rw [List.getD_eq_getElem?_getD, List.getElem?_eq_none (by omega)]
          rfl
  · simp only [savePolicyLine, CasbinRule.mk.injEq]
    exact ⟨trivial, getD_take_ite rule 0 (by omega), getD_take_ite rule 1 (by omega),
      getD_take_ite rule 2 (by omega), getD_take_ite rule 3 (by omega),
      getD_take_ite rule 4 (by omega), getD_take_ite rule 5 (by omega)⟩

/-- Witness for C4 at a concrete input: an 8-field rule keeps fields 0–5
in the value columns and drops the rest. -/
theorem c4_savePolicyLine_columns_witness :
    (2 : Nat) < 6 ∧
    (savePolicyLine "p" ["a", "b", "c", "d", "e", "f", "g", "h"]).getV 2 = "c" ∧
    savePolicyLine "p" ["a", "b", "c", "d", "e", "f", "g", "h"] =
      savePolicyLine "p" (["a", "b", "c", "d", "e", "f", "g", "h"].take 6) := by
  obtain ⟨h1, h2, h3⟩ := c4_savePolicyLine_columns "p" ["a", "b", "c", "d", "e", "f", "g", "h"]
  exact ⟨by decide, by rw [h2 2 (by decide)]; rfl, h3⟩

/-- C5: the text line `loadPolicyLine` builds is the type column followed
by each non-empty value column in column order, each preceded by the
`", "` separator — i.e. the fold of the separator-prepend over the
filtered column list. -/
theorem c5_loadPolicyLine_text (r : CasbinRule) :
    loadPolicyLineText r =
      (([r.V0, r.V1, r.V2, r.V3, r.V4, r.V5].filter (fun v => v ≠ "")).foldl
        (fun acc v => acc ++ ", " ++ v) r.PType) := by
  by_cases h0 : r.V0 = "" <;> by_cases h1 : r.V1 = "" <;> by_cases h2 : r.V2 = "" <;>
    by_cases h3 : r.V3 = "" <;> by_cases h4 : r.V4 = "" <;> by_cases h5 : r.V5 = "" <;>
    simp [loadPolicyLineText, h0, h1, h2, h3, h4, h5]

/-! ## Claim C3 -/

/-- C3 counterexample: the field `"a, b"` is non-empty and the rule has at
most 6 fields, yet encode–decode–parse yields `("p", ["a", "b"])`, not the
original `("p", ["a, b"])` — the `", "` separator inside a field breaks
the round trip. -/
theorem c3_roundtrip_counterexample :
    ("a, b" : String) ≠ "" ∧ (["a, b"] : List String).length ≤ 6 ∧
    parseLine (loadPolicyLineText (savePolicyLine "p" ["a, b"])) = ("p", ["a", "b"]) ∧
    parseLine (loadPolicyLineText (savePolicyLine "p" ["a, b"])) ≠ ("p", ["a, b"]) := by
  exact ⟨by decide, by decide, by decide, by decide⟩

/-- C3 (amended): for a policy type and at most 6 fields, each non-empty
and — as the counterexample forces — none containing the `", "` separator
(the policy type too), decode ∘ encode followed by the line-loader's split
returns the original policy type and fields, in order. -/
theorem c3_codec_roundtrip (ptype : String) (rule : List String)
    (hlen : rule.length ≤ 6)
    (hne : ∀ f ∈ rule, f ≠ "")
    (hsep : ∀ f ∈ rule, hasSep f.data = false)
    (hpt : hasSep ptype.data = false) :
    parseLine (loadPolicyLineText (savePolicyLine ptype rule)) = (ptype, rule) := by
  rcases rule with _ | ⟨a, _ | ⟨b, _ | ⟨c, _ | ⟨d, _ | ⟨e, _ | ⟨f, _ | ⟨g, rest⟩⟩⟩⟩⟩⟩⟩
  · exact parseLine_of_join ptype [] _ hpt (by simp)
      (by simp [loadPolicyLineText, savePolicyLine, joinSep])
  · have ha := hne a (by simp)
    exact parseLine_of_join ptype [a] _ hpt (by simpa using hsep)
      (by simp [loadPolicyLineText, savePolicyLine, ha, joinSep, String.data_append])
  · have ha := hne a (by simp)
    have hb := hne b (by simp)
    exact parseLine_of_join ptype [a, b] _ hpt (by simpa using hsep)
      (by simp [loadPolicyLineText, savePolicyLine, ha, hb, joinSep, String.data_append])
  · have ha := hne a (by simp)
    have hb := hne b (by simp)
    have hc := hne c (by simp)
    exact parseLine_of_join ptype [a, b, c] _ hpt (by simpa using hsep)
      (by simp [loadPolicyLineText, savePolicyLine, ha, hb, hc, joinSep,
        String.data_append])
  · have ha := hne a (by simp)
    have hb := hne b (by simp)
    have hc := hne c (by simp)
    have hd := hne d (by simp)
    exact parseLine_of_join ptype [a, b, c, d] _ hpt (by simpa using hsep)
      (by simp [loadPolicyLineText, savePolicyLine, ha, hb, hc, hd, joinSep,
        String.data_append])
  · have ha := hne a (by simp)
    have hb := hne b (by simp)
    have hc := hne c (by simp)
    have hd := hne d (by simp)
    have he := hne e (by simp)
    exact parseLine_of_join ptype [a, b, c, d, e] _ hpt (by simpa using hsep)
      (by simp [loadPolicyLineText, savePolicyLine, ha, hb, hc, hd, he, joinSep,
        String.data_append])
  · have ha := hne a (by simp)
    have hb := hne b (by simp)
    have hc := hne c (by simp)
    have hd := hne d (by simp)
    have he := hne e (by simp)
    have hf := hne f (by simp)
    exact parseLine_of_join ptype [a, b, c, d, e, f] _ hpt (by simpa using hsep)
      (by simp [loadPolicyLineText, savePolicyLine, ha, hb, hc, hd, he, hf, joinSep,
        String.data_append])
  · simp at hlen

/-- Witness for the amended C3 at the concrete rule
`("p", ["alice", "data1", "read"])`. -/
theorem c3_codec_roundtrip_witness :
    (["alice", "data1", "read"] : List String).length ≤ 6 ∧
    parseLine (loadPolicyLineText (savePolicyLine "p" ["alice", "data1", "read"])) =
      ("p", ["alice", "data1", "read"]) := by
  exact ⟨by decide, c3_codec_roundtrip "p" ["alice", "data1", "read"]
    (by decide) (by decide) (by decide) (by decide)⟩

/-! ## Claim C10 -/

/-- C10: for every `fieldIndex : Int` (negative and > 5 included) and every
field-value list, whenever column `i`'s guard
`fieldIndex <= i && i < fieldIndex + len(fieldValues)` holds, the index
`i - fieldIndex` used to read the list is within bounds — the filter-row
construction of `RemoveFilteredPolicy` never reads out of range. -/
theorem c10_rfp_index_safety (fieldIndex : Int) (fieldValues : List String)
    (i : Nat) (h : rfGuard fieldIndex fieldValues.length i) :
    0 ≤ rfAccess fieldIndex i ∧
    (rfAccess fieldIndex i).toNat < fieldValues.length := by
  obtain ⟨h1, h2⟩ := h
  unfold rfAccess
  omega

/-- Witness for C10 at `fieldIndex = -2`, two field values, column 0. -/
theorem c10_rfp_index_safety_witness :
    rfGuard (-2) (["a", "b", "c"] : List String).length 0 ∧
    0 ≤ rfAccess (-2) 0 ∧ (rfAccess (-2) 0).toNat < (["a", "b", "c"] : List String).length := by
  have h : rfGuard (-2) (["a", "b", "c"] : List String).length 0 := by
    constructor <;> decide
  exact ⟨h, c10_rfp_index_safety (-2) ["a", "b", "c"] 0 h⟩

/-! ## Helper lemmas on the table store -/

theorem lookupTable_update (ts : List (String × List CasbinRule)) (n : String)
    (f : List CasbinRule → List CasbinRule) :
    lookupTable (updateTable ts n f) n = (lookupTable ts n).map f := by
  induction ts with
  | nil => rfl
  | cons t rest ih =>
    obtain ⟨m, rs⟩ := t
    by_cases h : m = n
    · simp [updateTable, lookupTable, h]
    · simp [updateTable, lookupTable, h, ih]

theorem updateTable_self (ts : List (String × List CasbinRule)) (n : String)
    (f : List CasbinRule → List CasbinRule) (rs : List CasbinRule)
    (h : lookupTable ts n = some rs) (hf : f rs = rs) :
    updateTable ts n f = ts := by
  induction ts with
  | nil => rfl
  | cons t rest ih =>
    obtain ⟨m, rs'⟩ := t
    by_cases hm : m = n
    · simp only [lookupTable, if_pos hm, Option.some.injEq] at h
      simp [updateTable, hm, h, hf]
    · simp only [lookupTable, if_neg hm] at h
      simp [updateTable, hm, ih h]

theorem lookupTable_append_absent (ts : List (String × List CasbinRule))
    (n : String) (rs : List CasbinRule) (h : lookupTable ts n = none) :
    lookupTable (ts ++ [(n, rs)]) n = some rs := by
  induction ts with
  | nil => simp [lookupTable]
  | cons t rest ih =>
    obtain ⟨m, rs'⟩ := t
    by_cases hm : m = n
    · simp only [lookupTable, if_pos hm] at h
      cases h
    · simp only [lookupTable, if_neg hm] at h
      simp [lookupTable, hm, ih h]

theorem lookupTable_filter_self (ts : List (String × List CasbinRule)) (n : String) :
    lookupTable (ts.filter (fun t => t.1 ≠ n)) n = none := by
  induction ts with
  | nil => rfl
  | cons t rest ih =>
    obtain ⟨m, rs⟩ := t
    by_cases hm : m = n
    · subst hm
      simpa using ih
    · simp only [List.filter_cons]
      rw [show (decide ((m, rs).1 ≠ n)) = true by simp [hm]]
      simp only [lookupTable, if_neg hm]
      exact ih

theorem createTable_isSome (db : DB) :
    ((db.createTable).find xPolicyTableName).isSome := by
  unfold DB.createTable
  split
  · assumption
  · rename_i h
    have hnone : db.find xPolicyTableName = none := by
      cases hfind : db.find xPolicyTableName
      · rfl
      · rw [hfind] at h
        simp at h
    rw [show (DB.mk (db.tables ++ [(xPolicyTableName, [])])).find xPolicyTableName =
      lookupTable (db.tables ++ [(xPolicyTableName, [])]) xPolicyTableName from rfl,
      lookupTable_append_absent db.tables xPolicyTableName [] hnone]
    rfl

theorem insertAll_ok (rows : List CasbinRule) (db : DB) (rs : List CasbinRule)
    (h : db.find xPolicyTableName = some rs) :
    ∃ db2, insertAll db rows = (db2, false) ∧
      db2.find xPolicyTableName = some (rs ++ rows) := by
  induction rows generalizing db rs with
  | nil => exact ⟨db, rfl, by simpa using h⟩
  | cons r rows ih =>
    have hins : db.insert r =
        some ⟨updateTable db.tables xPolicyTableName (fun l => l ++ [r])⟩ := by
      unfold DB.insert
      rw [if_pos (by rw [h]; rfl)]
    have hfind2 : (DB.mk (updateTable db.tables xPolicyTableName
        (fun l => l ++ [r]))).find xPolicyTableName = some (rs ++ [r]) := by
      rw [show (DB.mk (updateTable db.tables xPolicyTableName
          (fun l => l ++ [r]))).find xPolicyTableName =
        lookupTable (updateTable db.tables xPolicyTableName
          (fun l => l ++ [r])) xPolicyTableName from rfl, lookupTable_update]
      rw [show db.find xPolicyTableName = lookupTable db.tables xPolicyTableName
        from rfl] at h
      rw [h]
      rfl
    obtain ⟨db2, h2, h2f⟩ := ih _ _ hfind2
    refine ⟨db2, ?_, by simpa using h2f⟩
    rw [insertAll, hins]
    exact h2

/-! ## Claim C6 -/

theorem createTable_of_none (db : DB) (h : db.find xPolicyTableName = none) :
    (db.createTable).find xPolicyTableName = some [] := by
  unfold DB.createTable
  rw [if_neg (by rw [h]; simp)]
  exact lookupTable_append_absent _ _ _ h

theorem savePolicy_run (st : AdapterState) (m : Model) :
    ∃ db4 : DB,
      SavePolicy st m = Res.ok ⟨ConnState.opened, db4, st.openCount + 1⟩ ∧
      db4.find xPolicyTableName = some (sectionLines m.p ++ sectionLines m.g) := by
  have hpresent := createTable_isSome st.db
  have hdrop : (st.db.createTable).dropTable =
      some ⟨(st.db.createTable).tables.filter (fun t => t.1 ≠ xPolicyTableName)⟩ := by
    unfold DB.dropTable
    rw [if_pos hpresent]
  have hnone : (DB.mk ((st.db.createTable).tables.filter
      (fun t => t.1 ≠ xPolicyTableName))).find xPolicyTableName = none :=
    lookupTable_filter_self _ _
  have hfresh := createTable_of_none _ hnone
  obtain ⟨db3, h3, h3f⟩ := insertAll_ok (sectionLines m.p) _ _ hfresh
  obtain ⟨db4, h4, h4f⟩ :=
    insertAll_ok (sectionLines m.g) db3 (sectionLines m.p) (by simpa using h3f)
  refine ⟨db4, ?_, by simpa using h4f⟩
  simp only [SavePolicy, AdapterState.openConn, hdrop, h3, h4]


/-- C6: `SavePolicy` drops and recreates the table and then inserts exactly
one row per rule — the "p" section's type→rules entries first, then the
"g" section's — each row produced by `savePolicyLine`; the resulting table
holds exactly those rows, in that order, whatever it held before. -/
theorem c6_savePolicy_rewrites (st : AdapterState) (m : Model) :
    ∃ db4 : DB,
      SavePolicy st m = Res.ok ⟨ConnState.opened, db4, st.openCount + 1⟩ ∧
      db4.find xPolicyTableName = some (sectionLines m.p ++ sectionLines m.g) :=
  savePolicy_run st m

/-! ## Claim C8 -/

/-- C8: deleting a rule whose encoding equals no stored row leaves the
adapter's state (table rows included) unchanged and reports success. -/
theorem c8_removePolicy_idempotent (st : AdapterState) (sec ptype : String)
    (rule : List String) (rows : List CasbinRule)
    (hconn : st.conn = ConnState.opened)
    (hrows : st.db.find xPolicyTableName = some rows)
    (habsent : savePolicyLine ptype rule ∉ rows) :
    RemovePolicy st sec ptype rule = Res.ok st := by
  obtain ⟨conn, db, cnt⟩ := st
  simp only at hconn hrows
  subst hconn
  have hfilter : rows.filter (fun r => r ≠ savePolicyLine ptype rule) = rows :=
    List.filter_eq_self.mpr (fun r hr => by
      simp only [ne_eq, decide_eq_true_eq]
      intro hEq
      exact habsent (hEq ▸ hr))
  have hdel : db.deleteExact (savePolicyLine ptype rule) = some db := by
    unfold DB.deleteExact
    rw [if_pos (by rw [hrows]; rfl)]
    congr 1
    rw [updateTable_self _ _ _ rows hrows hfilter]
  simp only [RemovePolicy, hdel]

/-- Witness for C8: removing `("p","bob","data2","write")` from a table
holding only the row `("p","alice","data1","read")` succeeds and changes
nothing. -/
theorem c8_removePolicy_idempotent_witness :
    oneRowAdapter.conn = ConnState.opened ∧
    savePolicyLine "p" ["bob", "data2", "write"] ∉
      [savePolicyLine "p" ["alice", "data1", "read"]] ∧
    RemovePolicy oneRowAdapter "p" "p" ["bob", "data2", "write"] =
      Res.ok oneRowAdapter := by
  refine ⟨rfl, by decide, ?_⟩
  exact c8_removePolicy_idempotent oneRowAdapter "p" "p" ["bob", "data2", "write"]
    [savePolicyLine "p" ["alice", "data1", "read"]] rfl (by decide) (by decide)

/-! ## Claim C7 -/

/-- C7 counterexample: with the single stored row
`("p","alice","data1","read")` and the in-range call `fieldIndex = 1`,
`fieldValues = [""]`, the claimed semantics constrains value column 1 to
`""` — which the row does not satisfy (`claimMatch` is `false`), so the
row should survive — yet the operation deletes it: an empty-string field
value is passed through as the struct's zero value and acts as a
wildcard, not as a constraint. -/
theorem c7_removeFiltered_counterexample :
    (0 : Int) ≤ 1 ∧ (1 : Int) + (([""] : List String).length : Int) ≤ 6 ∧
    (savePolicyLine "p" ["alice", "data1", "read"]).getV 1 ≠ "" ∧
    claimMatch "p" 1 [""] (savePolicyLine "p" ["alice", "data1", "read"]) = false ∧
    (RemoveFilteredPolicy oneRowAdapter "p" "p" 1 [""]).state =
      some ⟨ConnState.opened, ⟨[(xPolicyTableName, [])]⟩, 1⟩ := by
  exact ⟨by decide, by decide, by decide, by decide, by decide⟩

theorem matchesFilter_rfpLine (ptype : String) (fieldIndex : Int)
    (fieldValues : List String) (hne : ∀ v ∈ fieldValues, v ≠ "")
    (r : CasbinRule) :
    matchesFilter (rfpLine ptype fieldIndex fieldValues) r =
      claimMatch ptype fieldIndex fieldValues r := by
  have hcol : ∀ (x : String) (i : Nat),
      ((if rfGuard fieldIndex fieldValues.length i then
          fieldValues.getD (rfAccess fieldIndex i).toNat "" else "") == "" ||
       (x == (if rfGuard fieldIndex fieldValues.length i then
          fieldValues.getD (rfAccess fieldIndex i).toNat "" else ""))) =
      (if rfGuard fieldIndex fieldValues.length i then
          x == fieldValues.getD (rfAccess fieldIndex i).toNat "" else true) := by
    intro x i
    by_cases hg : rfGuard fieldIndex fieldValues.length i
    · rw [if_pos hg, if_pos hg]
      have hlt : (rfAccess fieldIndex i).toNat < fieldValues.length := by
        obtain ⟨a, b⟩ := hg
        unfold rfAccess
        omega
      have hmem : fieldValues.getD (rfAccess fieldIndex i).toNat "" ∈ fieldValues := by
        rw [List.getD_eq_getElem?_getD, List.getElem?_eq_getElem hlt]
        exact List.getElem_mem hlt
      rw [show (fieldValues.getD (rfAccess fieldIndex i).toNat "" == "") = false by
        simpa using hne _ hmem]
      simp
    · rw [if_neg hg, if_neg hg]
      simp
  unfold matchesFilter rfpLine claimMatch
  simp only
  rw [hcol r.V0 0, hcol r.V1 1, hcol r.V2 2, hcol r.V3 3, hcol r.V4 4, hcol r.V5 5]

/-- C7 (amended): for an in-range call whose field values are all
non-empty (as the counterexample forces — an empty given value acts as a
wildcard, not a constraint), the delete removes exactly the rows matching
`claimMatch`: type column equal (when the policy type is non-empty),
value columns `fieldIndex ..` equal to the given values, every other
value column unconstrained.  In particular the spec's two concrete calls
behave as claimed (see the witness). -/
theorem c7_removeFiltered_amended (st : AdapterState) (sec ptype : String)
    (fieldIndex : Int) (fieldValues : List String) (rows : List CasbinRule)
    (hconn : st.conn = ConnState.opened)
    (hrows : st.db.find xPolicyTableName = some rows)
    (h0 : 0 ≤ fieldIndex)
    (h6 : fieldIndex + (fieldValues.length : Int) ≤ 6)
    (hne : ∀ v ∈ fieldValues, v ≠ "") :
    ∃ db2 : DB,
      RemoveFilteredPolicy st sec ptype fieldIndex fieldValues =
        Res.ok { st with db := db2 } ∧
      db2.find xPolicyTableName =
        some (rows.filter (fun r => !(claimMatch ptype fieldIndex fieldValues r))) := by
  obtain ⟨conn, db, cnt⟩ := st
  simp only at hconn hrows
  subst hconn
  have hfun : (fun r => !(matchesFilter (rfpLine ptype fieldIndex fieldValues) r)) =
      (fun r => !(claimMatch ptype fieldIndex fieldValues r)) :=
    funext fun r => by rw [matchesFilter_rfpLine ptype fieldIndex fieldValues hne r]
  have hdel : db.deleteFiltered (rfpLine ptype fieldIndex fieldValues) =
      some ⟨updateTable db.tables xPolicyTableName
        (fun rs => rs.filter (fun r => !(claimMatch ptype fieldIndex fieldValues r)))⟩ := by
    unfold DB.deleteFiltered
    rw [if_pos (by rw [hrows]; rfl), hfun]
  refine ⟨⟨updateTable db.tables xPolicyTableName
    (fun rs => rs.filter (fun r => !(claimMatch ptype fieldIndex fieldValues r)))⟩,
    ?_, ?_⟩
  · simp only [RemoveFilteredPolicy, hdel]
  · rw [show (DB.mk (updateTable db.tables xPolicyTableName
      (fun rs => rs.filter (fun r => !(claimMatch ptype fieldIndex fieldValues r))))).find
        xPolicyTableName =
      lookupTable (updateTable db.tables xPolicyTableName
        (fun rs => rs.filter (fun r => !(claimMatch ptype fieldIndex fieldValues r))))
        xPolicyTableName from rfl, lookupTable_update]
    rw [show db.find xPolicyTableName = lookupTable db.tables xPolicyTableName from rfl]
      at hrows
    rw [hrows]
    rfl

/-- Witness for the amended C7: both calls from the spec's filtered-delete
property — `fieldIndex=1, ["data1"]` deletes the stored row
`("p","alice","data1","read")`; `fieldIndex=1, ["data2"]` leaves it
intact. -/
theorem c7_removeFiltered_amended_witness :
    oneRowAdapter.conn = ConnState.opened ∧ (0 : Int) ≤ 1 ∧
    (1 : Int) + ((["data1"] : List String).length : Int) ≤ 6 ∧
    (∃ db2 : DB,
      RemoveFilteredPolicy oneRowAdapter "p" "p" 1 ["data1"] =
        Res.ok { oneRowAdapter with db := db2 } ∧
      db2.find xPolicyTableName = some []) ∧
    (∃ db2 : DB,
      RemoveFilteredPolicy oneRowAdapter "p" "p" 1 ["data2"] =
        Res.ok { oneRowAdapter with db := db2 } ∧
      db2.find xPolicyTableName =
        some [savePolicyLine "p" ["alice", "data1", "read"]]) := by
  refine ⟨rfl, by decide, by decide, ?_, ?_⟩
  · obtain ⟨db2, h1, h2⟩ := c7_removeFiltered_amended oneRowAdapter "p" "p" 1 ["data1"]
      [savePolicyLine "p" ["alice", "data1", "read"]] rfl (by decide) (by decide)
      (by decide) (by decide)
    exact ⟨db2, h1, h2.trans (by decide)⟩
  · obtain ⟨db2, h1, h2⟩ := c7_removeFiltered_amended oneRowAdapter "p" "p" 1 ["data2"]
      [savePolicyLine "p" ["alice", "data1", "read"]] rfl (by decide) (by decide)
      (by decide) (by decide)
    exact ⟨db2, h1, h2.trans (by decide)⟩

/-! ## Claim C9 -/

/-- C9 counterexample: `AddPolicy` does not open a connection at entry —
the source never calls `open()` there, so on a just-constructed (unopened)
adapter the nil connection is dereferenced (panic) and no state with an
open connection results, contradicting "every public operation
transitions Unopened→Open at entry". -/
theorem c9_opens_counterexample :
    freshAdapter.conn = ConnState.unopened ∧
    ¬ ∃ st2 : AdapterState,
        (AddPolicy freshAdapter "p" "p" ["alice", "data1", "read"]).state = some st2 ∧
        st2.conn = ConnState.opened := by
  refine ⟨rfl, ?_⟩
  rintro ⟨st2, h, hc⟩
  simp [AddPolicy, Res.state, freshAdapter] at h

/-- C9 (amended): only `LoadPolicy` and `SavePolicy` transition the
connection Unopened→Open at entry (fresh connection: the open count grows
by one; table ensured: the `x_policy` table exists afterwards).
`AddPolicy`, `RemovePolicy` and `RemoveFilteredPolicy` do not open a
connection at entry: on an unopened adapter they dereference the nil
connection (panic), and in every non-panicking run they leave the
connection state and the open count exactly as they found them.  In
particular no operation ever transitions the connection to Closed. -/
theorem c9_conn_lifecycle :
    (∀ (st : AdapterState) (m : Model), ∃ stm : AdapterState × Model,
      (LoadPolicy st m).state = some stm ∧ stm.1.conn = ConnState.opened ∧
      stm.1.openCount = st.openCount + 1 ∧
      (stm.1.db.find xPolicyTableName).isSome = true) ∧
    (∀ (st : AdapterState) (m : Model), ∃ st2 : AdapterState,
      (SavePolicy st m).state = some st2 ∧ st2.conn = ConnState.opened ∧
      st2.openCount = st.openCount + 1 ∧
      (st2.db.find xPolicyTableName).isSome = true) ∧
    (∀ (st : AdapterState) (sec ptype : String) (rule : List String),
      st.conn = ConnState.unopened →
      AddPolicy st sec ptype rule = Res.panicked) ∧
    (∀ (st : AdapterState) (sec ptype : String) (rule : List String)
        (st2 : AdapterState),
      (AddPolicy st sec ptype rule).state = some st2 →
      st2.conn = st.conn ∧ st2.openCount = st.openCount) ∧
    (∀ (st : AdapterState) (sec ptype : String) (rule : List String),
      st.conn = ConnState.unopened →
      RemovePolicy st sec ptype rule = Res.panicked) ∧
    (∀ (st : AdapterState) (sec ptype : String) (rule : List String)
        (st2 : AdapterState),
      (RemovePolicy st sec ptype rule).state = some st2 →
      st2.conn = st.conn ∧ st2.openCount = st.openCount) ∧
    (∀ (st : AdapterState) (sec ptype : String) (fieldIndex : Int)
        (fieldValues : List String),
      st.conn = ConnState.unopened →
      RemoveFilteredPolicy st sec ptype fieldIndex fieldValues = Res.panicked) ∧
    (∀ (st : AdapterState) (sec ptype : String) (fieldIndex : Int)
        (fieldValues : List String) (st2 : AdapterState),
      (RemoveFilteredPolicy st sec ptype fieldIndex fieldValues).state = some st2 →
      st2.conn = st.conn ∧ st2.openCount = st.openCount) := by
  refine ⟨?_, ?_, ?_, ?_, ?_, ?_, ?_, ?_⟩
  · intro st m
    cases hq : (st.openConn).db.find loadQueryTableName with
    | none =>
      exact ⟨(st.openConn, m), by simp [LoadPolicy, hq, Res.state], rfl, rfl,
        createTable_isSome st.db⟩
    | some lines =>
      exact ⟨(st.openConn, lines.foldl (fun acc l => loadPolicyLine l acc) m),
        by simp [LoadPolicy, hq, Res.state], rfl, rfl, createTable_isSome st.db⟩
  · intro st m
    obtain ⟨db4, hrun, hfind⟩ := savePolicy_run st m
    exact ⟨⟨ConnState.opened, db4, st.openCount + 1⟩, by rw [hrun]; rfl, rfl, rfl,
      by rw [hfind]; rfl⟩
  · intro st sec ptype rule h
    obtain ⟨conn, db, cnt⟩ := st
    cases conn with
    | unopened => rfl
    | opened => simp at h
    | closed => simp at h
  · intro st sec ptype rule st2 h
    obtain ⟨conn, db, cnt⟩ := st
    cases conn with
    | unopened => simp [AddPolicy, Res.state] at h
    | closed =>
      simp only [AddPolicy, Res.state, Option.some.injEq] at h
      rw [← h]
      exact ⟨rfl, rfl⟩
    | opened =>
      simp only [AddPolicy] at h
      cases hins : db.insert (savePolicyLine ptype rule) with
      | none =>
        rw [hins] at h
        simp only [Res.state, Option.some.injEq] at h
        rw [← h]
        exact ⟨rfl, rfl⟩
      | some db2 =>
        rw [hins] at h
        simp only [Res.state, Option.some.injEq] at h
        rw [← h]
        exact ⟨rfl, rfl⟩
  · intro st sec ptype rule h
    obtain ⟨conn, db, cnt⟩ := st
    cases conn with
    | unopened => rfl
    | opened => simp at h
    | closed => simp at h
  · intro st sec ptype rule st2 h
    obtain ⟨conn, db, cnt⟩ := st
    cases conn with
    | unopened => simp [RemovePolicy, Res.state] at h
    | closed =>
      simp only [RemovePolicy, Res.state, Option.some.injEq] at h
      rw [← h]
      exact ⟨rfl, rfl⟩
    | opened =>
      simp only [RemovePolicy] at h
      cases hdel : db.deleteExact (savePolicyLine ptype rule) with
      | none =>
        rw [hdel] at h
        simp only [Res.state, Option.some.injEq] at h
        rw [← h]
        exact ⟨rfl, rfl⟩
      | some db2 =>
        rw [hdel] at h
        simp only [Res.state, Option.some.injEq] at h
        rw [← h]
        exact ⟨rfl, rfl⟩
  · intro st sec ptype fieldIndex fieldValues h
    obtain ⟨conn, db, cnt⟩ := st
    cases conn with
    | unopened => rfl
    | opened => simp at h
    | closed => simp at h
  · intro st sec ptype fieldIndex fieldValues st2 h
    obtain ⟨conn, db, cnt⟩ := st
    cases conn with
    | unopened => simp [RemoveFilteredPolicy, Res.state] at h
    | closed =>
      simp only [RemoveFilteredPolicy, Res.state, Option.some.injEq] at h
      rw [← h]
      exact ⟨rfl, rfl⟩
    | opened =>
      simp only [RemoveFilteredPolicy] at h
      cases hdel : db.deleteFiltered (rfpLine ptype fieldIndex fieldValues) with
      | none =>
        rw [hdel] at h
        simp only [Res.state, Option.some.injEq] at h
        rw [← h]
        exact ⟨rfl, rfl⟩
      | some db2 =>
        rw [hdel] at h
        simp only [Res.state, Option.some.injEq] at h
        rw [← h]
        exact ⟨rfl, rfl⟩

/-- Witness for the amended C9 at concrete inputs: `RemovePolicy` on the
unopened fresh adapter panics (it does not open a connection), and
`RemoveFilteredPolicy` on the open one-row adapter ends with the same
connection state and open count it started with. -/
theorem c9_conn_lifecycle_witness :
    freshAdapter.conn = ConnState.unopened ∧
    RemovePolicy freshAdapter "p" "p" ["alice", "data1", "read"] = Res.panicked ∧
    (⟨ConnState.opened, ⟨[(xPolicyTableName, [])]⟩, 1⟩ : AdapterState).conn =
      oneRowAdapter.conn ∧
    (⟨ConnState.opened, ⟨[(xPolicyTableName, [])]⟩, 1⟩ : AdapterState).openCount =
      oneRowAdapter.openCount := by
  have h1 := c9_conn_lifecycle.2.2.2.2.1 freshAdapter "p" "p"
    ["alice", "data1", "read"] rfl
  have h2 := c9_conn_lifecycle.2.2.2.2.2.2.2 oneRowAdapter "p" "p" 1 ["data1"]
    ⟨ConnState.opened, ⟨[(xPolicyTableName, [])]⟩, 1⟩ (by decide)
  exact ⟨rfl, h1, h2.1, h2.2⟩

/-! ## Claim C1 -/

/-- C1 fails on the code: `SavePolicy` on the spec's model stores the three
encoded rows in the `x_policy` table, but the following `LoadPolicy` reads
from the (non-existent) `policy` table, returns the query error, and
leaves the fresh model empty — its "p" rule collection is not a
permutation of the original's. -/
theorem c1_roundtrip_failure :
    ((SavePolicy freshAdapter demoModel).state).map
        (fun s => s.db.find xPolicyTableName) =
      some (some (sectionLines demoModel.p ++ sectionLines demoModel.g)) ∧
    demoRoundTrip.isErr = true ∧
    (demoRoundTrip.state).map Prod.snd = some emptyModel ∧
    ((emptyModel.rulesOf "p" "p").isPerm (demoModel.rulesOf "p" "p")) = false := by
  exact ⟨by decide, by decide, by decide, by decide⟩
